import Mathlib

/-!
Verification of the GridWorld simulation engine (Rust crate under
src/simulation) against its natural-language specification.

The Rust sources are shallowly embedded: machine integers become Nat with
an explicit `% 2 ^ w` at the few additions where a u8/u16 could overflow,
fallible operations return a pair of the (possibly updated) state and an
`Except String` result mirroring the mutation order of the Rust code, and
the hecs entity store becomes an association list from entity handles to
the person component bundle (every spawn in the sources attaches the full
base set Person/TileId/BirthDate/Sex, so the bundle carries those four
plus the optional Partner/Mother/Fertility/Pregnant components).
-/

namespace GridWorld

-- ============================================================================
-- Calendar (src/simulation/src/components.rs)
-- ============================================================================

/-- Custom calendar: 8 days/month, 12 months/year (components.rs, `Calendar`).
Fields are u16/u8/u8 in the source; modelled as Nat, with wrapping made
explicit where an increment could overflow the machine width. -/
structure Calendar where
  year : Nat
  month : Nat
  day : Nat
deriving DecidableEq, Repr

def Calendar.new (year month day : Nat) : Calendar :=
  { year := year, month := month, day := day }

/-- `Calendar::advance`: day+1; if day > 8 then day=1, month+1; if month > 12
then month=1, year+1.  The `% 256` / `% 65536` make the u8/u16 wrapping of
the source increments explicit. -/
def Calendar.advance (c : Calendar) : Calendar :=
  let day := (c.day + 1) % 256
  if 8 < day then
    let month := (c.month + 1) % 256
    if 12 < month then
      { year := (c.year + 1) % 65536, month := 1, day := 1 }
    else
      { year := c.year, month := month, day := 1 }
  else
    { year := c.year, month := c.month, day := day }

-- ============================================================================
-- Person components (src/simulation/src/components.rs)
-- ============================================================================

inductive Sex where
  | Male
  | Female
deriving DecidableEq, Repr

structure Person where
  id : Nat
  first_name : String
  last_name : String
deriving DecidableEq, Repr

/-- Birth date using calendar year/month/day (components.rs, `BirthDate`). -/
structure BirthDate where
  year : Nat
  month : Nat
  day : Nat
deriving DecidableEq, Repr

/-- `BirthDate::age_years`: `cal.year.saturating_sub(self.year)`; Nat
subtraction is exactly u16 saturating subtraction. -/
def BirthDate.age_years (b : BirthDate) (cal : Calendar) : Nat :=
  cal.year - b.year

/-- `BirthDate::age_months`: `(years * 12).saturating_add_signed(months)` with
`years = cal.year.saturating_sub(self.year)` and
`months = cal.month as i32 - self.month as i32`.  `Int.toNat` is the
saturation at 0; the u32 upper saturation is unreachable because
`years <= 65535` in the source. -/
def BirthDate.age_months (b : BirthDate) (cal : Calendar) : Nat :=
  let years : Nat := cal.year - b.year
  let months : Int := (cal.month : Int) - (b.month : Int)
  (((years * 12 : Nat) : Int) + months).toNat

/-- Pregnancy tracking (components.rs, `Pregnant`). -/
structure Pregnant where
  due_year : Nat
  due_month : Nat
deriving DecidableEq, Repr

/-- `Pregnant::new`: due_month = month + 9; if due_month > 12 then
due_month -= 12, due_year += 1.  The month addition is u8 and the year
increment is u16; both wraps are made explicit. -/
def Pregnant.new (cal : Calendar) : Pregnant :=
  let due_month := (cal.month + 9) % 256
  if 12 < due_month then
    { due_year := (cal.year + 1) % 65536, due_month := due_month - 12 }
  else
    { due_year := cal.year, due_month := due_month }

/-- Fertility tracking (components.rs, `Fertility`). -/
structure Fertility where
  last_birth_year : Nat
  last_birth_month : Nat
  children_born : Nat
deriving DecidableEq, Repr

-- ============================================================================
-- Event log (src/simulation/src/components.rs)
-- ============================================================================

inductive EventType where
  | Birth
  | Death
  | Marriage
  | PregnancyStarted
  | Dissolution
deriving DecidableEq, Repr

structure Event where
  event_type : EventType
  year : Nat
  month : Nat
  day : Nat
  person_id : Option Nat
deriving DecidableEq, Repr

/-- Event log with circular buffer (components.rs, `EventLog`).  The VecDeque
is modelled as a list whose head is the front (oldest) element. -/
structure EventLog where
  events : List Event
  max_size : Nat
deriving DecidableEq, Repr

def EventLog.new (max_size : Nat) : EventLog :=
  { events := [], max_size := max_size }

/-- `EventLog::push`: if len >= max_size, pop the front (oldest), then push
the event at the back. -/
def EventLog.push (l : EventLog) (e : Event) : EventLog :=
  let evs := if l.max_size ≤ l.events.length then l.events.drop 1 else l.events
  { events := evs ++ [e], max_size := l.max_size }

/-- `EventLog::get_all`: all events, newest first. -/
def EventLog.get_all (l : EventLog) : List Event :=
  l.events.reverse

/-- `EventLog::clear`: drop the events, keep the configured capacity. -/
def EventLog.clear (l : EventLog) : EventLog :=
  { events := [], max_size := l.max_size }

/-- `EventLog::count_by_type`: count events of one type whose year lies in
the inclusive range. -/
def EventLog.count_by_type (l : EventLog) (t : EventType) (start_year end_year : Nat) : Nat :=
  (l.events.filter (fun e =>
    e.event_type == t && decide (start_year ≤ e.year) && decide (e.year ≤ end_year))).length

-- ============================================================================
-- Entity store and world (src/simulation/src/world.rs)
-- ============================================================================

/-- The component bundle of one person entity.  Every spawn in the sources
attaches Person/TileId/BirthDate/Sex; Partner, Mother, Fertility and
Pregnant are the optional components.  Partner and Mother hold entity
handles, as in the source. -/
structure PersonComponents where
  person : Person
  tile : Nat
  birth : BirthDate
  sex : Sex
  partner : Option Nat
  mother : Option Nat
  fertility : Option Fertility
  pregnancy : Option Pregnant
deriving DecidableEq, Repr

/-- The hecs `World`, restricted to person entities: an association list from
entity handle to component bundle, plus the allocator state for fresh
handles. -/
structure World where
  nextEntity : Nat
  persons : List (Nat × PersonComponents)
deriving DecidableEq, Repr

/-- Replace one component bundle in place (models `world.insert_one` on an
existing entity). -/
def World.updateAt (w : World) (e : Nat) (f : PersonComponents → PersonComponents) : World :=
  { w with persons := w.persons.map (fun q => if q.1 = e then (q.1, f q.2) else q) }

/-- `SimulationWorld` (world.rs): store + calendar + id counter + event log. -/
structure SimulationWorld where
  world : World
  calendar : Calendar
  next_person_id : Nat
  event_log : EventLog
deriving DecidableEq, Repr

/-- `SimulationWorld::new`: empty store, calendar 4000-1-1, id counter 1,
10k-event log. -/
def SimulationWorld.new : SimulationWorld :=
  { world := { nextEntity := 0, persons := [] }
    calendar := { year := 4000, month := 1, day := 1 }
    next_person_id := 1
    event_log := EventLog.new 10000 }

/-- `SimulationWorld::entity_count`: the number of entities holding a
BirthDate; in the model every stored entity holds the full base set. -/
def SimulationWorld.entity_count (s : SimulationWorld) : Nat :=
  s.world.persons.length

-- ============================================================================
-- Export data structures (src/simulation/src/persistence.rs)
-- ============================================================================

inductive ExportedSex where
  | Male
  | Female
deriving DecidableEq, Repr

def sexToExported : Sex → ExportedSex
  | Sex.Male => ExportedSex.Male
  | Sex.Female => ExportedSex.Female

def sexOfExported : ExportedSex → Sex
  | ExportedSex.Male => Sex.Male
  | ExportedSex.Female => Sex.Female

structure ExportedFertility where
  last_birth_year : Nat
  last_birth_month : Nat
  children_born : Nat
deriving DecidableEq, Repr

def fertilityToExported (f : Fertility) : ExportedFertility :=
  { last_birth_year := f.last_birth_year
    last_birth_month := f.last_birth_month
    children_born := f.children_born }

def fertilityOfExported (f : ExportedFertility) : Fertility :=
  { last_birth_year := f.last_birth_year
    last_birth_month := f.last_birth_month
    children_born := f.children_born }

structure ExportedPregnancy where
  due_year : Nat
  due_month : Nat
deriving DecidableEq, Repr

def pregnancyToExported (p : Pregnant) : ExportedPregnancy :=
  { due_year := p.due_year, due_month := p.due_month }

def pregnancyOfExported (p : ExportedPregnancy) : Pregnant :=
  { due_year := p.due_year, due_month := p.due_month }

inductive ExportedEventType where
  | Birth
  | Death
  | Marriage
  | PregnancyStarted
  | Dissolution
deriving DecidableEq, Repr

def eventTypeToExported : EventType → ExportedEventType
  | EventType.Birth => ExportedEventType.Birth
  | EventType.Death => ExportedEventType.Death
  | EventType.Marriage => ExportedEventType.Marriage
  | EventType.PregnancyStarted => ExportedEventType.PregnancyStarted
  | EventType.Dissolution => ExportedEventType.Dissolution

def eventTypeOfExported : ExportedEventType → EventType
  | ExportedEventType.Birth => EventType.Birth
  | ExportedEventType.Death => EventType.Death
  | ExportedEventType.Marriage => EventType.Marriage
  | ExportedEventType.PregnancyStarted => EventType.PregnancyStarted
  | ExportedEventType.Dissolution => EventType.Dissolution

structure ExportedEvent where
  event_type : ExportedEventType
  year : Nat
  month : Nat
  day : Nat
  person_id : Option Nat
deriving DecidableEq, Repr

def eventToExported (e : Event) : ExportedEvent :=
  { event_type := eventTypeToExported e.event_type
    year := e.year, month := e.month, day := e.day, person_id := e.person_id }

def eventOfExported (e : ExportedEvent) : Event :=
  { event_type := eventTypeOfExported e.event_type
    year := e.year, month := e.month, day := e.day, person_id := e.person_id }

/-- Single person with all their components (persistence.rs,
`ExportedPerson`). -/
structure ExportedPerson where
  person_id : Nat
  tile_id : Nat
  first_name : String
  last_name : String
  sex : ExportedSex
  birth_year : Nat
  birth_month : Nat
  birth_day : Nat
  partner_id : Option Nat
  mother_id : Option Nat
  fertility : Option ExportedFertility
  pregnancy : Option ExportedPregnancy
deriving DecidableEq, Repr

structure CalendarData where
  year : Nat
  month : Nat
  day : Nat
deriving DecidableEq, Repr

/-- Complete world state for persistence (persistence.rs, `ExportData`). -/
structure ExportData where
  version : Nat
  calendar : CalendarData
  next_person_id : Nat
  people : List ExportedPerson
  event_log : List ExportedEvent
deriving DecidableEq, Repr

structure ImportResult where
  population : Nat
  partners : Nat
  mothers : Nat
  calendar_year : Nat
deriving DecidableEq, Repr

-- ============================================================================
-- Export (persistence.rs, `build_export_data`)
-- ============================================================================

/-- The `entity_to_person_id` HashMap lookup of `build_export_data`: every
entity holding a `Person` maps to the id of that person. -/
def lookupPersonId (w : World) (ent : Nat) : Option Nat :=
  (w.persons.find? (fun r => r.1 == ent)).map (fun r => r.2.person.id)

/-- Body of the export loop of `build_export_data`: one `ExportedPerson` from
one entity and its components; partner and mother handles are translated to
person ids through the store. -/
def exportPerson (w : World) (q : Nat × PersonComponents) : ExportedPerson :=
  { person_id := q.2.person.id
    tile_id := q.2.tile
    first_name := q.2.person.first_name
    last_name := q.2.person.last_name
    sex := sexToExported q.2.sex
    birth_year := q.2.birth.year
    birth_month := q.2.birth.month
    birth_day := q.2.birth.day
    partner_id := q.2.partner.bind (fun pe => lookupPersonId w pe)
    mother_id := q.2.mother.bind (fun me => lookupPersonId w me)
    fertility := q.2.fertility.map fertilityToExported
    pregnancy := q.2.pregnancy.map pregnancyToExported }

/-- `SimulationWorld::build_export_data`: version 1, calendar, id counter,
one record per person, and the event log newest first (`get_all`). -/
def build_export_data (s : SimulationWorld) : ExportData :=
  { version := 1
    calendar := { year := s.calendar.year, month := s.calendar.month, day := s.calendar.day }
    next_person_id := s.next_person_id
    people := s.world.persons.map (exportPerson s.world)
    event_log := s.event_log.get_all.map eventToExported }

-- ============================================================================
-- Import (persistence.rs, `import_from_export_data`)
-- ============================================================================

/-- The `person_id_to_entity` HashMap lookup of the import: the list is
consed on insertion, so `find?` returns the most recent insertion, as a
HashMap overwrite would. -/
def lookupEnt (m : List (Nat × Nat)) (pid : Nat) : Option Nat :=
  (m.find? (fun q => q.1 == pid)).map (fun q => q.2)

/-- Pass 1 loop body of the import: the spawned bundle of one
`ExportedPerson` (base components plus optional fertility/pregnancy; links
are attached in pass 2). -/
def basePC (p : ExportedPerson) : PersonComponents :=
  { person := { id := p.person_id, first_name := p.first_name, last_name := p.last_name }
    tile := p.tile_id
    birth := { year := p.birth_year, month := p.birth_month, day := p.birth_day }
    sex := sexOfExported p.sex
    partner := none
    mother := none
    fertility := p.fertility.map fertilityOfExported
    pregnancy := p.pregnancy.map pregnancyOfExported }

/-- Pass 1 of the import: spawn every person in order, recording the
id-to-entity map. -/
def importSpawn (w : World) (m : List (Nat × Nat)) :
    List ExportedPerson → World × List (Nat × Nat)
  | [] => (w, m)
  | p :: rest =>
      importSpawn
        { nextEntity := w.nextEntity + 1
          persons := w.persons ++ [(w.nextEntity, basePC p)] }
        ((p.person_id, w.nextEntity) :: m) rest

/-- Pass 2 partner step: if the record names a partner id that resolves
through the map, attach the Partner link; the Bool mirrors the
`partners_added` increment. -/
def linkPartner (m : List (Nat × Nat)) (e : Nat) (pid? : Option Nat) (w : World) :
    World × Bool :=
  match pid? with
  | none => (w, false)
  | some pid =>
    match lookupEnt m pid with
    | none => (w, false)
    | some pe => (w.updateAt e (fun pc => { pc with partner := some pe }), true)

/-- Pass 2 mother step, as `linkPartner`. -/
def linkMother (m : List (Nat × Nat)) (e : Nat) (mid? : Option Nat) (w : World) :
    World × Bool :=
  match mid? with
  | none => (w, false)
  | some mid =>
    match lookupEnt m mid with
    | none => (w, false)
    | some me => (w.updateAt e (fun pc => { pc with mother := some me }), true)

/-- Pass 2 of the import: re-attach partner and mother links by resolving
person ids through the map.  The source indexes the map directly with the
own id of the spawned person (always present after pass 1); the `none` fallback
is the unreachable branch of that index. -/
def importLink (m : List (Nat × Nat)) (w : World) (partners mothers : Nat) :
    List ExportedPerson → World × Nat × Nat
  | [] => (w, partners, mothers)
  | p :: rest =>
    match lookupEnt m p.person_id with
    | none => importLink m w partners mothers rest
    | some e =>
      let r1 := linkPartner m e p.partner_id w
      let r2 := linkMother m e p.mother_id r1.1
      importLink m r2.1 (partners + (if r1.2 then 1 else 0))
        (mothers + (if r2.2 then 1 else 0)) rest

/-- `SimulationWorld::import_from_export_data`: version check first (the
error return happens before any mutation), then clear the store, restore
calendar and id counter, spawn pass, link pass, and event-log replay.  The
pair carries the state alongside the result so that the mutation order of
the source is visible. -/
def import_from_export_data (s : SimulationWorld) (data : ExportData) :
    SimulationWorld × Except String ImportResult :=
  if data.version ≠ 1 then
    (s, Except.error ("Unsupported export version: " ++ toString data.version))
  else
    let cleared : World := { nextEntity := s.world.nextEntity, persons := [] }
    let spawned := importSpawn cleared [] data.people
    let linked := importLink spawned.2 spawned.1 0 0 data.people
    let log := data.event_log.foldl (fun l ev => l.push (eventOfExported ev))
      s.event_log.clear
    ({ world := linked.1
       calendar := Calendar.new data.calendar.year data.calendar.month data.calendar.day
       next_person_id := data.next_person_id
       event_log := log },
     Except.ok
       { population := data.people.length
         partners := linked.2.1
         mothers := linked.2.2
         calendar_year := data.calendar.year })

-- ============================================================================
-- Save file and load (persistence.rs, `SaveFile`, `load_from_file`)
-- ============================================================================

/-- On-disk save file format, after the bincode decode (the file read and
the bincode deserialization are the I/O and format layers, elided by the
embedding). -/
structure SaveFile where
  version : Nat
  seed : Nat
  ecs_data : ExportData
  node_state : List Nat
deriving DecidableEq, Repr

/-- Result of `load_from_file`; the decoded text blob is kept as its UTF-8
byte sequence. -/
structure LoadFileResult where
  import_result : ImportResult
  seed : Nat
  node_state_json : List Nat
deriving DecidableEq, Repr

def contByte (b : Nat) : Bool :=
  decide (0x80 ≤ b ∧ b ≤ 0xBF)

/-- Modelled from the Rust standard library: UTF-8 validity of a byte
sequence per RFC 3629 (surrogates and overlong encodings excluded), the
check performed by `String::from_utf8` in `load_from_file`. -/
def utf8Valid : List Nat → Bool
  | [] => true
  | b :: rest =>
    if b ≤ 0x7F then utf8Valid rest
    else if 0xC2 ≤ b ∧ b ≤ 0xDF then
      match rest with
      | c1 :: r => contByte c1 && utf8Valid r
      | [] => false
    else if b = 0xE0 then
      match rest with
      | c1 :: c2 :: r => decide (0xA0 ≤ c1 ∧ c1 ≤ 0xBF) && contByte c2 && utf8Valid r
      | _ => false
    else if (0xE1 ≤ b ∧ b ≤ 0xEC) ∨ b = 0xEE ∨ b = 0xEF then
      match rest with
      | c1 :: c2 :: r => contByte c1 && contByte c2 && utf8Valid r
      | _ => false
    else if b = 0xED then
      match rest with
      | c1 :: c2 :: r => decide (0x80 ≤ c1 ∧ c1 ≤ 0x9F) && contByte c2 && utf8Valid r
      | _ => false
    else if b = 0xF0 then
      match rest with
      | c1 :: c2 :: c3 :: r =>
        decide (0x90 ≤ c1 ∧ c1 ≤ 0xBF) && contByte c2 && contByte c3 && utf8Valid r
      | _ => false
    else if 0xF1 ≤ b ∧ b ≤ 0xF3 then
      match rest with
      | c1 :: c2 :: c3 :: r => contByte c1 && contByte c2 && contByte c3 && utf8Valid r
      | _ => false
    else if b = 0xF4 then
      match rest with
      | c1 :: c2 :: c3 :: r =>
        decide (0x80 ≤ c1 ∧ c1 ≤ 0x8F) && contByte c2 && contByte c3 && utf8Valid r
      | _ => false
    else false

/-- `SimulationWorld::load_from_file`, from the decoded `SaveFile` on: the
version check, then the UTF-8 decode of the opaque blob, and then the
delegated import — in that source order, so a blob decode failure returns
before the structured snapshot is touched. -/
def load_from_file (s : SimulationWorld) (save : SaveFile) :
    SimulationWorld × Except String LoadFileResult :=
  if save.version ≠ 1 then
    (s, Except.error ("Unsupported save file version: " ++ toString save.version))
  else if utf8Valid save.node_state = false then
    (s, Except.error "Invalid UTF-8 in node_state")
  else
    match import_from_export_data s save.ecs_data with
    | (s', Except.ok r) =>
        (s', Except.ok { import_result := r, seed := save.seed, node_state_json := save.node_state })
    | (s', Except.error e) => (s', Except.error e)

-- ============================================================================
-- Vital statistics (src/simulation/src/world.rs, `calculate_vital_statistics`)
-- ============================================================================

/-- Vital statistics; the four f64 rate fields are idealized as exact
rationals (the claim under test is the algebra of the literal formula). -/
structure VitalStatistics where
  birth_rate : ℚ
  death_rate : ℚ
  marriage_rate : ℚ
  natural_increase_rate : ℚ
  total_births : Nat
  total_deaths : Nat
  total_marriages : Nat
  population : Nat
  period_years : ℚ
deriving DecidableEq, Repr

/-- `SimulationWorld::calculate_vital_statistics`: counts from the event log,
`period_years = end.saturating_sub(start) + 1` (Nat subtraction is the
saturating subtraction), `pop_factor = 1000 / (population * period_years)`
guarded by `population > 0`, and each rate is
`count * pop_factor * period_years`. -/
def SimulationWorld.calculate_vital_statistics (s : SimulationWorld)
    (start_year end_year : Nat) : VitalStatistics :=
  let births := s.event_log.count_by_type EventType.Birth start_year end_year
  let deaths := s.event_log.count_by_type EventType.Death start_year end_year
  let marriages := s.event_log.count_by_type EventType.Marriage start_year end_year
  let population := s.entity_count
  let period_years : ℚ := ((end_year - start_year) + 1 : Nat)
  let pop_factor : ℚ :=
    if 0 < population then 1000 / ((population : ℚ) * period_years) else 0
  let birth_rate := (births : ℚ) * pop_factor * period_years
  let death_rate := (deaths : ℚ) * pop_factor * period_years
  let marriage_rate := (marriages : ℚ) * pop_factor * period_years
  { birth_rate := birth_rate
    death_rate := death_rate
    marriage_rate := marriage_rate
    natural_increase_rate := birth_rate - death_rate
    total_births := births
    total_deaths := deaths
    total_marriages := marriages
    population := population
    period_years := period_years }

-- ============================================================================
-- Mortality (src/simulation/src/systems/death.rs, spec section 4.3)
-- ============================================================================

/-- Base mortality rates by age bracket, annual probability (death.rs,
`MORTALITY_RATES`; the decimal f64 literals are exact rationals). -/
def MORTALITY_RATES : List (Nat × ℚ) :=
  [(0, 0.05), (5, 0.005), (15, 0.002), (30, 0.003), (50, 0.01),
   (60, 0.025), (70, 0.05), (80, 0.12), (90, 0.25), (100, 0.5)]

/-- The annual-rate lookup of `get_mortality_rate`: the table is scanned in
reverse for the first bracket whose lower bound does not exceed the age,
defaulting to 0.002. -/
def annual_mortality (years : Nat) : ℚ :=
  ((MORTALITY_RATES.reverse.find? (fun p => decide (p.1 ≤ years))).map
    (fun p => p.2)).getD 0.002

/-- Modelled from the spec: the per-tick (per-day) mortality probability of
the active death system.  The death system actually linked into the build —
the one `world.rs` calls with a `&Calendar` argument — is absent from the
source snapshot; the `systems/death.rs` present is a stale earlier
generation (it takes a tick counter and references Age/Alive/Dead
components that no longer exist).  Its bracket table, which the spec
reproduces verbatim, is taken from the source above; the per-day conversion
`1 - (1 - annual)^(1/96)` follows the spec.  The f64 computation is
idealized over the reals. -/
noncomputable def get_mortality_rate (years : Nat) : ℝ :=
  1 - (1 - ((annual_mortality years : ℚ) : ℝ)) ^ ((1 : ℝ) / 96)

/-- The bracket semantics of the spec, written as the piecewise table: the rate of
the highest bracket lower bound not exceeding the age. -/
def bracket_rate (a : Nat) : ℚ :=
  if a < 5 then 0.05
  else if a < 15 then 0.005
  else if a < 30 then 0.002
  else if a < 50 then 0.003
  else if a < 60 then 0.01
  else if a < 70 then 0.025
  else if a < 80 then 0.05
  else if a < 90 then 0.12
  else if a < 100 then 0.25
  else 0.5

-- ============================================================================
-- Helper definitions for the round-trip proof
-- ============================================================================

/-- Normal form of the spawn pass: the store contents produced from entity
handle `n` on. -/
def spawnList (n : Nat) : List ExportedPerson → List (Nat × PersonComponents)
  | [] => []
  | p :: ps => (n, basePC p) :: spawnList (n + 1) ps

/-- Normal form of the id map built by the spawn pass (in insertion order;
the pass conses, so the final map is its reverse). -/
def idPairs (n : Nat) : List ExportedPerson → List (Nat × Nat)
  | [] => []
  | p :: ps => (p.person_id, n) :: idPairs (n + 1) ps

/-- The bundle of one person after the link pass: the base bundle with partner and
mother resolved through the id map. -/
def fullPC (m : List (Nat × Nat)) (p : ExportedPerson) : PersonComponents :=
  { basePC p with
    partner := p.partner_id.bind (fun pid => lookupEnt m pid)
    mother := p.mother_id.bind (fun mid => lookupEnt m mid) }

/-- Normal form of the store after the link pass. -/
def linkedList (m : List (Nat × Nat)) (n : Nat) :
    List ExportedPerson → List (Nat × PersonComponents)
  | [] => []
  | p :: ps => (n, fullPC m p) :: linkedList m (n + 1) ps

-- ============================================================================
-- Helper definitions for the calendar proof
-- ============================================================================

/-- Day index of a valid calendar date (96 days per year). -/
def toDays (c : Calendar) : Nat :=
  c.year * 96 + (c.month - 1) * 8 + (c.day - 1)

/-- The valid calendar date of a day index. -/
def ofDays (n : Nat) : Calendar :=
  { year := n / 96, month := n % 96 / 8 + 1, day := n % 8 + 1 }

-- ============================================================================
-- Concrete instances used by the witnesses
-- ============================================================================

def samplePersonA : PersonComponents :=
  { person := { id := 1, first_name := "Ada", last_name := "A" }
    tile := 0
    birth := { year := 3970, month := 2, day := 3 }
    sex := Sex.Female
    partner := some 11
    mother := none
    fertility := some { last_birth_year := 4000, last_birth_month := 5, children_born := 2 }
    pregnancy := some { due_year := 4002, due_month := 12 } }

def samplePersonB : PersonComponents :=
  { person := { id := 2, first_name := "Bob", last_name := "B" }
    tile := 3
    birth := { year := 3968, month := 1, day := 1 }
    sex := Sex.Male
    partner := some 10
    mother := some 10
    fertility := none
    pregnancy := none }

def sampleBirthEvent : Event :=
  { event_type := EventType.Birth, year := 4000, month := 1, day := 1, person_id := some 2 }

def sampleDeathEvent : Event :=
  { event_type := EventType.Death, year := 4001, month := 2, day := 2, person_id := none }

/-- A two-person world with both link components, fertility, pregnancy and a
non-empty event log, on non-zero entity handles. -/
def sampleWorld : SimulationWorld :=
  { world := { nextEntity := 12, persons := [(10, samplePersonA), (11, samplePersonB)] }
    calendar := { year := 4002, month := 3, day := 4 }
    next_person_id := 3
    event_log := { events := [sampleBirthEvent, sampleDeathEvent], max_size := 10000 } }

/-- An export payload declaring unsupported schema version 2. -/
def versionTwoData : ExportData :=
  { version := 2
    calendar := { year := 4000, month := 1, day := 1 }
    next_person_id := 1
    people := []
    event_log := [] }

/-- A save file whose version and structured payload are valid but whose
opaque blob is not valid UTF-8. -/
def badBlobSave : SaveFile :=
  { version := 1
    seed := 7
    ecs_data :=
      { version := 1
        calendar := { year := 1234, month := 2, day := 3 }
        next_person_id := 5
        people := []
        event_log := [] }
    node_state := [255] }

end GridWorld

namespace GridWorld

-- ============================================================================
-- Small laws of the conversion pairs
-- ============================================================================

theorem sexToExported_ofExported (x : ExportedSex) : sexToExported (sexOfExported x) = x := by
  cases x <;> rfl

-- ============================================================================
-- C4: schema-version rejection leaves the world untouched
-- ============================================================================

/-- Claim C4: for every snapshot whose schema version is not 1, the import
returns the version error and the world state (all of it: store, calendar,
id counter, event log) is exactly the input state — the check precedes any
mutation. -/
theorem c4_schema_version_reject (s : SimulationWorld) (data : ExportData)
    (h : data.version ≠ 1) :
    import_from_export_data s data
      = (s, Except.error ("Unsupported export version: " ++ toString data.version)) := by
  simp [import_from_export_data, h]

/-- Witness for C4 at the scenario of the spec: schema version 2. -/
theorem c4_witness :
    versionTwoData.version ≠ 1 ∧
    import_from_export_data SimulationWorld.new versionTwoData
      = (SimulationWorld.new,
         Except.error ("Unsupported export version: " ++ toString versionTwoData.version)) :=
  ⟨by decide, c4_schema_version_reject SimulationWorld.new versionTwoData (by decide)⟩

-- ============================================================================
-- C1: the blob-encoding error is raised BEFORE the snapshot is restored
-- ============================================================================

/-- Counterexample to claim C1: a save file with valid version and valid
structured payload but an invalid-UTF-8 blob makes `load_from_file` return
the encoding error while the world still holds its original state — the
calendar differs from the snapshot calendar, so the error does not coincide with
the snapshot having been restored. -/
theorem c1_counterexample :
    load_from_file SimulationWorld.new badBlobSave
      = (SimulationWorld.new, Except.error "Invalid UTF-8 in node_state")
    ∧ SimulationWorld.new.calendar
        ≠ Calendar.new badBlobSave.ecs_data.calendar.year
            badBlobSave.ecs_data.calendar.month badBlobSave.ecs_data.calendar.day :=
  ⟨rfl, by decide⟩

/-- Claim C1 as amended: the UTF-8 check of the opaque blob runs before the
structured import, so for every save file with version 1 and an invalid
blob, `load_from_file` reports the encoding error and leaves the world
completely unchanged. -/
theorem c1_encoding_error_before_restore (s : SimulationWorld) (save : SaveFile)
    (hv : save.version = 1) (hblob : utf8Valid save.node_state = false) :
    load_from_file s save = (s, Except.error "Invalid UTF-8 in node_state") := by
  simp [load_from_file, hv, hblob]

/-- Witness for the amended C1. -/
theorem c1_witness :
    badBlobSave.version = 1 ∧ utf8Valid badBlobSave.node_state = false ∧
    load_from_file SimulationWorld.new badBlobSave
      = (SimulationWorld.new, Except.error "Invalid UTF-8 in node_state") :=
  ⟨rfl, rfl, c1_encoding_error_before_restore SimulationWorld.new badBlobSave rfl rfl⟩

-- ============================================================================
-- C6: event log capacity bound and FIFO eviction
-- ============================================================================

theorem push_max_size (l : EventLog) (e : Event) : (l.push e).max_size = l.max_size := rfl

theorem push_length_le (l : EventLog) (e : Event) (h1 : 1 ≤ l.max_size)
    (h2 : l.events.length ≤ l.max_size) :
    (l.push e).events.length ≤ l.max_size := by
  simp only [EventLog.push]
  split <;> simp <;> omega

theorem foldl_push_le (es : List Event) : ∀ (l : EventLog), 1 ≤ l.max_size →
    l.events.length ≤ l.max_size →
    (es.foldl EventLog.push l).events.length ≤ l.max_size := by
  induction es with
  | nil => intro l _ h2; simpa using h2
  | cons e es ih =>
      intro l h1 h2
      have h3 := push_length_le l e h1 h2
      have h4 := ih (l.push e) (by simpa [push_max_size] using h1)
        (by simpa [push_max_size] using h3)
      simpa [push_max_size] using h4

/-- Counterexample to claim C6: with configured capacity 0 a push still
stores the event, so the log holds more events than its capacity. -/
theorem c6_counterexample :
    (EventLog.new 0).max_size
      < ((EventLog.new 0).push sampleBirthEvent).events.length := by
  decide

/-- Claim C6 as amended: for every configured capacity of at least 1, no
sequence of pushes ever makes the log exceed the capacity, and a push
arriving while the log is exactly at capacity evicts exactly the oldest
retained event, keeping all the others in order. -/
theorem c6_capacity_fifo (cap : Nat) (hcap : 1 ≤ cap) (es : List Event)
    (l : EventLog) (e : Event) (hfull : l.events.length = l.max_size) :
    ((es.foldl EventLog.push (EventLog.new cap)).events.length ≤ cap)
    ∧ (l.push e).events = l.events.drop 1 ++ [e] := by
  constructor
  · exact foldl_push_le es (EventLog.new cap) hcap (by simp [EventLog.new])
  · simp [EventLog.push, hfull]

/-- Witness for the amended C6 at capacity 1. -/
theorem c6_witness :
    (1 ≤ 1)
    ∧ ({ events := [sampleBirthEvent], max_size := 1 } : EventLog).events.length
        = ({ events := [sampleBirthEvent], max_size := 1 } : EventLog).max_size
    ∧ ((([sampleBirthEvent, sampleDeathEvent].foldl EventLog.push (EventLog.new 1)).events.length ≤ 1)
        ∧ (EventLog.push { events := [sampleBirthEvent], max_size := 1 } sampleDeathEvent).events
            = ([sampleBirthEvent] : List Event).drop 1 ++ [sampleDeathEvent]) :=
  ⟨by decide, by decide,
   c6_capacity_fifo 1 (by decide) [sampleBirthEvent, sampleDeathEvent]
     { events := [sampleBirthEvent], max_size := 1 } sampleDeathEvent (by decide)⟩

-- ============================================================================
-- C8: due date of a pregnancy record
-- ============================================================================

/-- Counterexample to claim C8: at the maximal representable year 65535 with
month 6 the sum exceeds 12, but the 16-bit year increment wraps, so the due
year is 0 and not the incremented year. -/
theorem c8_counterexample :
    (Pregnant.new { year := 65535, month := 6, day := 1 }).due_year = 0
    ∧ (Pregnant.new { year := 65535, month := 6, day := 1 }).due_year ≠ 65535 + 1 := by
  decide

/-- Claim C8 as amended: for every calendar date with month in 1..12 and year
below the maximal representable year, the pregnancy record has due month
month + 9, reduced by 12 with the due year incremented when the sum exceeds
12; the due date ignores the calendar day, and in particular month 6 of
year 4000 is due in month 3 of year 4001 whatever the day. -/
theorem c8_due_date (cal : Calendar) (h1 : 1 ≤ cal.month) (h2 : cal.month ≤ 12)
    (hy : cal.year < 65535) :
    (Pregnant.new cal =
      if 12 < cal.month + 9 then
        { due_year := cal.year + 1, due_month := cal.month + 9 - 12 }
      else
        { due_year := cal.year, due_month := cal.month + 9 })
    ∧ Pregnant.new { year := 4000, month := 6, day := cal.day }
        = { due_year := 4001, due_month := 3 } := by
  constructor
  · simp only [Pregnant.new]
    rw [Nat.mod_eq_of_lt (by omega : cal.month + 9 < 256)]
    split_ifs with h
    · rw [Nat.mod_eq_of_lt (by omega : cal.year + 1 < 65536)]
    · rfl
  · rfl

/-- Witness for the amended C8 at the scenario date of the spec. -/
theorem c8_witness :
    ((1:Nat) ≤ 6 ∧ (6:Nat) ≤ 12 ∧ (4000:Nat) < 65535)
    ∧ (Pregnant.new { year := 4000, month := 6, day := 5 } =
        if 12 < 6 + 9 then { due_year := 4000 + 1, due_month := 6 + 9 - 12 }
        else { due_year := 4000, due_month := 6 + 9 })
    ∧ Pregnant.new { year := 4000, month := 6, day := 5 }
        = { due_year := 4001, due_month := 3 } :=
  ⟨by decide,
   (c8_due_date { year := 4000, month := 6, day := 5 } (by decide) (by decide) (by decide)).1,
   (c8_due_date { year := 4000, month := 6, day := 5 } (by decide) (by decide) (by decide)).2⟩

-- ============================================================================
-- C9: zero population gives exactly-zero rates
-- ============================================================================

/-- Claim C9: when the current population is zero, the population guard makes
all four vital rates exactly 0, for every requested year range. -/
theorem c9_zero_population_rates (s : SimulationWorld) (start_year end_year : Nat)
    (h : s.entity_count = 0) :
    (s.calculate_vital_statistics start_year end_year).birth_rate = 0
    ∧ (s.calculate_vital_statistics start_year end_year).death_rate = 0
    ∧ (s.calculate_vital_statistics start_year end_year).marriage_rate = 0
    ∧ (s.calculate_vital_statistics start_year end_year).natural_increase_rate = 0 := by
  simp [SimulationWorld.calculate_vital_statistics, h]

/-- Witness for C9 on the empty world. -/
theorem c9_witness :
    SimulationWorld.new.entity_count = 0
    ∧ (SimulationWorld.new.calculate_vital_statistics 4000 4009).birth_rate = 0
    ∧ (SimulationWorld.new.calculate_vital_statistics 4000 4009).death_rate = 0
    ∧ (SimulationWorld.new.calculate_vital_statistics 4000 4009).marriage_rate = 0
    ∧ (SimulationWorld.new.calculate_vital_statistics 4000 4009).natural_increase_rate = 0 :=
  ⟨rfl,
   (c9_zero_population_rates SimulationWorld.new 4000 4009 rfl).1,
   (c9_zero_population_rates SimulationWorld.new 4000 4009 rfl).2.1,
   (c9_zero_population_rates SimulationWorld.new 4000 4009 rfl).2.2.1,
   (c9_zero_population_rates SimulationWorld.new 4000 4009 rfl).2.2.2⟩

-- ============================================================================
-- C5: the vital-rate formula and the exact cancellation of the period length
-- ============================================================================

/-- Claim C5: with positive population, each vital rate equals
count-in-range × 1000 / population — the period-length normalization
cancels exactly, so the rate does not depend on the length of the year
range — and the natural-increase rate is the birth rate minus the death
rate.  (The f64 arithmetic of the source is idealized as exact rational
arithmetic; the cancellation is the algebra of the literal formula.) -/
theorem c5_vital_rates (s : SimulationWorld) (start_year end_year : Nat)
    (hpop : 0 < s.entity_count) :
    (s.calculate_vital_statistics start_year end_year).birth_rate
      = (s.event_log.count_by_type EventType.Birth start_year end_year : ℚ)
          * 1000 / (s.entity_count : ℚ)
    ∧ (s.calculate_vital_statistics start_year end_year).death_rate
      = (s.event_log.count_by_type EventType.Death start_year end_year : ℚ)
          * 1000 / (s.entity_count : ℚ)
    ∧ (s.calculate_vital_statistics start_year end_year).marriage_rate
      = (s.event_log.count_by_type EventType.Marriage start_year end_year : ℚ)
          * 1000 / (s.entity_count : ℚ)
    ∧ (s.calculate_vital_statistics start_year end_year).natural_increase_rate
      = (s.calculate_vital_statistics start_year end_year).birth_rate
        - (s.calculate_vital_statistics start_year end_year).death_rate := by
  have hp : ((s.entity_count : ℚ)) ≠ 0 := Nat.cast_ne_zero.mpr (by omega)
  have hT : (((end_year - start_year) + 1 : Nat) : ℚ) ≠ 0 := Nat.cast_ne_zero.mpr (by omega)
  simp only [SimulationWorld.calculate_vital_statistics, if_pos hpop]
  refine ⟨?_, ?_, ?_, trivial⟩ <;> field_simp <;> ring

/-- Witness for C5 on a two-person world over a two-year range. -/
theorem c5_witness :
    0 < sampleWorld.entity_count
    ∧ (sampleWorld.calculate_vital_statistics 4000 4001).birth_rate
      = (sampleWorld.event_log.count_by_type EventType.Birth 4000 4001 : ℚ)
          * 1000 / (sampleWorld.entity_count : ℚ)
    ∧ (sampleWorld.calculate_vital_statistics 4000 4001).natural_increase_rate
      = (sampleWorld.calculate_vital_statistics 4000 4001).birth_rate
        - (sampleWorld.calculate_vital_statistics 4000 4001).death_rate :=
  ⟨by decide,
   (c5_vital_rates sampleWorld 4000 4001 (by decide)).1,
   (c5_vital_rates sampleWorld 4000 4001 (by decide)).2.2.2⟩

-- ============================================================================
-- C10: age arithmetic is total and saturating
-- ============================================================================

/-- Claim C10: age_years is the saturating difference of the years, and
age_months is exactly the 0-clamped signed month count — so both are total,
and for a birth date in the future of the calendar age_years is 0 and age_months
is clamped at 0 instead of wrapping around. -/
theorem c10_age_saturation (b : BirthDate) (cal : Calendar) :
    ((b.age_months cal : Int)
      = max 0 ((((cal.year - b.year) * 12 : Nat) : Int) + (cal.month : Int) - (b.month : Int)))
    ∧ (cal.year ≤ b.year →
        b.age_years cal = 0
        ∧ (b.age_months cal : Int) = max 0 ((cal.month : Int) - (b.month : Int))) := by
  simp only [BirthDate.age_months, BirthDate.age_years]
  constructor
  · omega
  · intro h
    constructor
    · omega
    · have hz : cal.year - b.year = 0 := by omega
      rw [hz]
      omega

/-- Witness for C10: a birth date one year past the calendar date. -/
theorem c10_witness :
    (BirthDate.age_years { year := 4001, month := 5, day := 1 } { year := 4000, month := 3, day := 1 } = 0)
    ∧ (BirthDate.age_months { year := 4001, month := 5, day := 1 } { year := 4000, month := 3, day := 1 } : Int)
        = max 0 (((3:Nat) : Int) - ((5:Nat) : Int)) :=
  ⟨((c10_age_saturation { year := 4001, month := 5, day := 1 }
      { year := 4000, month := 3, day := 1 }).2 (by decide)).1,
   ((c10_age_saturation { year := 4001, month := 5, day := 1 }
      { year := 4000, month := 3, day := 1 }).2 (by decide)).2⟩

-- ============================================================================
-- C2: the per-day mortality probability
-- ============================================================================

theorem annual_eq_bracket (a : Nat) : annual_mortality a = bracket_rate a := by
  rcases lt_or_le a 101 with h | h
  · interval_cases a <;> rfl
  · have h100 : 100 ≤ a := by omega
    have e1 : annual_mortality a = 0.5 := by
      rw [annual_mortality,
        show MORTALITY_RATES.reverse
            = [(100, (0.5 : ℚ)), (90, 0.25), (80, 0.12), (70, 0.05), (60, 0.025),
               (50, 0.01), (30, 0.003), (15, 0.002), (5, 0.005), (0, 0.05)] from rfl]
      simp [List.find?_cons, h100]
    have e2 : bracket_rate a = 0.5 := by
      rw [bracket_rate]
      repeat rw [if_neg (by omega)]
    rw [e1, e2]

/-- Claim C2: for every age, the per-tick death probability equals
1 − (1 − annual(a))^(1/96), where annual(a) is the rate of the highest
bracket lower bound not exceeding the age in the table (piecewise:
0→0.05, 5→0.005, 15→0.002, 30→0.003, 50→0.01, 60→0.025, 70→0.05, 80→0.12,
90→0.25, 100→0.5). -/
theorem c2_death_rate_formula (a : Nat) :
    get_mortality_rate a = 1 - (1 - ((bracket_rate a : ℚ) : ℝ)) ^ ((1 : ℝ) / 96) := by
  rw [get_mortality_rate, annual_eq_bracket]

-- ============================================================================
-- C7: 96 advances are one year; 120 advances from 4000-1-1 land on 4001-4-1
-- ============================================================================

theorem advance_ofDays (n : Nat) (h : n + 1 < 65536 * 96) :
    Calendar.advance (ofDays n) = ofDays (n + 1) := by
  simp only [Calendar.advance, ofDays]
  split_ifs with h1 h2 <;> simp only [Calendar.mk.injEq] <;> omega

theorem ofDays_toDays (c : Calendar) (h1 : 1 ≤ c.month) (h2 : c.month ≤ 12)
    (h3 : 1 ≤ c.day) (h4 : c.day ≤ 8) : ofDays (toDays c) = c := by
  obtain ⟨y, m, d⟩ := c
  simp only [ofDays, toDays, Calendar.mk.injEq] at *
  omega

theorem advance_iterate (c : Calendar) (h1 : 1 ≤ c.month) (h2 : c.month ≤ 12)
    (h3 : 1 ≤ c.day) (h4 : c.day ≤ 8) (n : Nat) (h : toDays c + n < 65536 * 96) :
    Calendar.advance^[n] c = ofDays (toDays c + n) := by
  induction n with
  | zero => simpa using (ofDays_toDays c h1 h2 h3 h4).symm
  | succ k ih =>
      rw [Function.iterate_succ_apply', ih (by omega)]
      exact advance_ofDays (toDays c + k) (by omega)

set_option maxRecDepth 16384 in
/-- Claim C7: from every valid calendar date with the year below the maximal
representable year, 96 advances increment the year by exactly 1 and leave
month and day unchanged; and 120 advances from 4000-1-1 land on 4001-4-1
(one year and 24 days). -/
theorem c7_calendar_advance (c : Calendar) (h1 : 1 ≤ c.month) (h2 : c.month ≤ 12)
    (h3 : 1 ≤ c.day) (h4 : c.day ≤ 8) (hy : c.year < 65535) :
    Calendar.advance^[96] c = { year := c.year + 1, month := c.month, day := c.day }
    ∧ Calendar.advance^[120] { year := 4000, month := 1, day := 1 }
        = { year := 4001, month := 4, day := 1 } := by
  constructor
  · have hb : toDays c + 96 < 65536 * 96 := by
      simp only [toDays]; omega
    rw [advance_iterate c h1 h2 h3 h4 96 hb]
    simp only [ofDays, toDays, Calendar.mk.injEq]
    omega
  · decide

/-- Witness for C7 at the scenario start date of the spec. -/
theorem c7_witness :
    Calendar.advance^[96] { year := 4000, month := 1, day := 1 }
      = { year := 4000 + 1, month := 1, day := 1 }
    ∧ Calendar.advance^[120] { year := 4000, month := 1, day := 1 }
      = { year := 4001, month := 4, day := 1 } :=
  c7_calendar_advance { year := 4000, month := 1, day := 1 }
    (by decide) (by decide) (by decide) (by decide) (by decide)

-- ============================================================================
-- C3: export → import round trip.  Pass 1 (spawn) characterization.
-- ============================================================================

theorem importSpawn_spec (people : List ExportedPerson) : ∀ (w : World) (m : List (Nat × Nat)),
    importSpawn w m people
      = ({ nextEntity := w.nextEntity + people.length
           persons := w.persons ++ spawnList w.nextEntity people },
         (idPairs w.nextEntity people).reverse ++ m) := by
  induction people with
  | nil => intro w m; simp [importSpawn, spawnList, idPairs]
  | cons p ps ih =>
      intro w m
      rw [importSpawn, ih]
      simp only [spawnList, idPairs, List.reverse_cons, List.append_assoc,
        List.singleton_append, List.length_cons, List.cons_append, List.nil_append]
      have hn : w.nextEntity + 1 + ps.length = w.nextEntity + (ps.length + 1) := by omega
      rw [hn]

theorem idPairs_keys (ps : List ExportedPerson) : ∀ n : Nat,
    (idPairs n ps).map Prod.fst = ps.map (fun p => p.person_id) := by
  induction ps with
  | nil => intro n; rfl
  | cons p ps ih => intro n; simp [idPairs, ih]

theorem mem_idPairs_of_getElem? (ps : List ExportedPerson) : ∀ (j n : Nat) (p : ExportedPerson),
    ps[j]? = some p → (p.person_id, n + j) ∈ idPairs n ps := by
  induction ps with
  | nil => intro j n p h; simp at h
  | cons q qs ih =>
      intro j n p h
      cases j with
      | zero =>
          simp only [List.getElem?_cons_zero, Option.some.injEq] at h
          subst h
          simp [idPairs]
      | succ j' =>
          simp only [List.getElem?_cons_succ] at h
          have h2 := ih j' (n + 1) p h
          rw [idPairs]
          refine List.mem_cons_of_mem _ ?_
          have : n + (j' + 1) = (n + 1) + j' := by omega
          rw [this]
          exact h2

theorem lookupEnt_eq_of_mem (l : List (Nat × Nat)) (hnd : (l.map Prod.fst).Nodup)
    {k v : Nat} (hm : (k, v) ∈ l) : lookupEnt l k = some v := by
  induction l with
  | nil => simp at hm
  | cons a t ih =>
      rcases List.mem_cons.mp hm with h | h
      · subst h
        rw [lookupEnt, List.find?_cons_of_pos _ (by simp)]
        rfl
      · have hne : a.1 ≠ k := by
          intro he
          have hkin : k ∈ t.map Prod.fst := List.mem_map_of_mem Prod.fst h
          exact (List.nodup_cons.mp hnd).1 (by rw [he]; exact hkin)
        rw [lookupEnt, List.find?_cons_of_neg _ (by simpa using hne)]
        exact ih (List.nodup_cons.mp hnd).2 h

theorem lookup_spawn_map (people : List ExportedPerson)
    (hnd : (people.map (fun p => p.person_id)).Nodup) (n0 j : Nat) (p : ExportedPerson)
    (hj : people[j]? = some p) :
    lookupEnt ((idPairs n0 people).reverse) p.person_id = some (n0 + j) := by
  apply lookupEnt_eq_of_mem
  · rw [List.map_reverse]
    rw [List.nodup_reverse]
    rw [idPairs_keys]
    exact hnd
  · rw [List.mem_reverse]
    exact mem_idPairs_of_getElem? people j n0 p hj

-- ============================================================================
-- C3: pass 2 (link) characterization
-- ============================================================================

theorem map_if_id (l : List (Nat × PersonComponents)) (n : Nat)
    (f : PersonComponents → PersonComponents) (h : ∀ q ∈ l, q.1 ≠ n) :
    l.map (fun q => if q.1 = n then (q.1, f q.2) else q) = l := by
  induction l with
  | nil => rfl
  | cons a t ih =>
      rw [List.map_cons, if_neg (h a (List.mem_cons_self a t)),
        ih (fun q hq => h q (List.mem_cons_of_mem a hq))]

theorem updateAt_middle (N n : Nat) (x : PersonComponents)
    (pre suf : List (Nat × PersonComponents)) (f : PersonComponents → PersonComponents)
    (hpre : ∀ q ∈ pre, q.1 ≠ n) (hsuf : ∀ q ∈ suf, q.1 ≠ n) :
    World.updateAt { nextEntity := N, persons := pre ++ (n, x) :: suf } n f
      = { nextEntity := N, persons := pre ++ (n, f x) :: suf } := by
  simp only [World.updateAt, List.map_append, List.map_cons, eq_self_iff_true, if_true]
  rw [map_if_id pre n f hpre, map_if_id suf n f hsuf]

theorem with_partner_none (x : PersonComponents) (hx : x.partner = none) :
    ({ x with partner := none } : PersonComponents) = x := by
  cases x
  simp only at hx
  simp [hx]

theorem with_mother_none (x : PersonComponents) (hx : x.mother = none) :
    ({ x with mother := none } : PersonComponents) = x := by
  cases x
  simp only at hx
  simp [hx]

theorem linkPartner_world (m : List (Nat × Nat)) (pid? : Option Nat) (N n : Nat)
    (x : PersonComponents) (pre suf : List (Nat × PersonComponents))
    (hpre : ∀ q ∈ pre, q.1 ≠ n) (hsuf : ∀ q ∈ suf, q.1 ≠ n) (hx : x.partner = none) :
    (linkPartner m n pid? { nextEntity := N, persons := pre ++ (n, x) :: suf }).1
      = { nextEntity := N
          persons := pre ++ (n, { x with partner := pid?.bind (fun pid => lookupEnt m pid) }) :: suf } := by
  cases pid? with
  | none =>
      simp only [linkPartner, Option.none_bind]
      rw [with_partner_none x hx]
  | some pid =>
      cases hl : lookupEnt m pid with
      | none =>
          simp only [linkPartner, hl, Option.some_bind]
          rw [with_partner_none x hx]
      | some pe =>
          simp only [linkPartner, hl, Option.some_bind]
          exact updateAt_middle N n x pre suf _ hpre hsuf

theorem linkMother_world (m : List (Nat × Nat)) (mid? : Option Nat) (N n : Nat)
    (x : PersonComponents) (pre suf : List (Nat × PersonComponents))
    (hpre : ∀ q ∈ pre, q.1 ≠ n) (hsuf : ∀ q ∈ suf, q.1 ≠ n) (hx : x.mother = none) :
    (linkMother m n mid? { nextEntity := N, persons := pre ++ (n, x) :: suf }).1
      = { nextEntity := N
          persons := pre ++ (n, { x with mother := mid?.bind (fun mid => lookupEnt m mid) }) :: suf } := by
  cases mid? with
  | none =>
      simp only [linkMother, Option.none_bind]
      rw [with_mother_none x hx]
  | some mid =>
      cases hl : lookupEnt m mid with
      | none =>
          simp only [linkMother, hl, Option.some_bind]
          rw [with_mother_none x hx]
      | some me =>
          simp only [linkMother, hl, Option.some_bind]
          exact updateAt_middle N n x pre suf _ hpre hsuf

theorem spawnList_keys_ge (ps : List ExportedPerson) : ∀ (n : Nat),
    ∀ q ∈ spawnList n ps, n ≤ q.1 := by
  induction ps with
  | nil => intro n q hq; simp [spawnList] at hq
  | cons p ps ih =>
      intro n q hq
      rw [spawnList] at hq
      rcases List.mem_cons.mp hq with h | h
      · rw [h]
      · exact Nat.le_of_succ_le (ih (n + 1) q h)

theorem importLink_spec (m : List (Nat × Nat)) (people : List ExportedPerson) :
    ∀ (pre : List (Nat × PersonComponents)) (n N partners mothers : Nat),
    (∀ (j : Nat) (p : ExportedPerson), people[j]? = some p →
        lookupEnt m p.person_id = some (n + j)) →
    (∀ q ∈ pre, q.1 < n) →
    (importLink m { nextEntity := N, persons := pre ++ spawnList n people }
        partners mothers people).1
      = { nextEntity := N, persons := pre ++ linkedList m n people } := by
  induction people with
  | nil => intro pre n N partners mothers _ _; simp [importLink, spawnList, linkedList]
  | cons p rest ih =>
      intro pre n N partners mothers H Hpre
      have h0 : lookupEnt m p.person_id = some n := by
        have := H 0 p (by simp)
        simpa using this
      have hpre : ∀ q ∈ pre, q.1 ≠ n := fun q hq => Nat.ne_of_lt (Hpre q hq)
      have hsuf : ∀ q ∈ spawnList (n + 1) rest, q.1 ≠ n := by
        intro q hq
        have := spawnList_keys_ge rest (n + 1) q hq
        omega
      rw [spawnList, importLink, h0]
      simp only []
      rw [linkPartner_world m p.partner_id N n (basePC p) pre (spawnList (n + 1) rest)
        hpre hsuf (by simp [basePC])]
      rw [linkMother_world m p.mother_id N n _ pre (spawnList (n + 1) rest)
        hpre hsuf (by simp [basePC])]
      have hshape :
          (pre ++ (n, { basePC p with
              partner := p.partner_id.bind (fun pid => lookupEnt m pid)
              mother := p.mother_id.bind (fun mid => lookupEnt m mid) }) :: spawnList (n + 1) rest)
            = (pre ++ [(n, fullPC m p)]) ++ spawnList (n + 1) rest := by
        simp [fullPC, List.append_assoc]
      rw [hshape]
      have H' : ∀ (j : Nat) (p' : ExportedPerson), rest[j]? = some p' →
          lookupEnt m p'.person_id = some ((n + 1) + j) := by
        intro j p' hj
        have := H (j + 1) p' (by simpa using hj)
        have harith : n + (j + 1) = (n + 1) + j := by omega
        rw [harith] at this
        exact this
      have Hpre' : ∀ q ∈ pre ++ [(n, fullPC m p)], q.1 < n + 1 := by
        intro q hq
        rcases List.mem_append.mp hq with h | h
        · exact Nat.lt_succ_of_lt (Hpre q h)
        · simp only [List.mem_singleton] at h
          rw [h]
          omega
      rw [ih (pre ++ [(n, fullPC m p)]) (n + 1) N _ _ H' Hpre']
      simp [linkedList, List.append_assoc]

-- ============================================================================
-- C3: export of the re-imported store
-- ============================================================================

theorem linkedList_length (m : List (Nat × Nat)) (ps : List ExportedPerson) : ∀ n : Nat,
    (linkedList m n ps).length = ps.length := by
  induction ps with
  | nil => intro n; rfl
  | cons p ps ih => intro n; simp [linkedList, ih]

theorem linkedList_getElem? (m : List (Nat × Nat)) (ps : List ExportedPerson) :
    ∀ (n j : Nat), (linkedList m n ps)[j]? = (ps[j]?).map (fun p => (n + j, fullPC m p)) := by
  induction ps with
  | nil => intro n j; simp [linkedList]
  | cons p ps ih =>
      intro n j
      cases j with
      | zero => simp [linkedList]
      | succ j' =>
          rw [linkedList]
          simp only [List.getElem?_cons_succ]
          rw [ih (n + 1) j']
          have : n + 1 + j' = n + (j' + 1) := by omega
          rw [this]

theorem linkedList_find?_entity (m : List (Nat × Nat)) (ps : List ExportedPerson) :
    ∀ (n k : Nat) (p : ExportedPerson), ps[k]? = some p →
    (linkedList m n ps).find? (fun r => r.1 == n + k) = some (n + k, fullPC m p) := by
  induction ps with
  | nil => intro n k p h; simp at h
  | cons q qs ih =>
      intro n k p h
      cases k with
      | zero =>
          simp only [List.getElem?_cons_zero, Option.some.injEq] at h
          subst h
          rw [linkedList, List.find?_cons_of_pos _ (by simp)]
          simp
      | succ k' =>
          simp only [List.getElem?_cons_succ] at h
          rw [linkedList, List.find?_cons_of_neg _ (by simp)]
          have harith : n + (k' + 1) = (n + 1) + k' := by omega
          rw [harith]
          exact ih (n + 1) k' p h

theorem lookupPersonId_linked (m : List (Nat × Nat)) (ps : List ExportedPerson)
    (N n k : Nat) (p : ExportedPerson) (h : ps[k]? = some p) :
    lookupPersonId { nextEntity := N, persons := linkedList m n ps } (n + k)
      = some p.person_id := by
  rw [lookupPersonId]
  simp only []
  rw [linkedList_find?_entity m ps n k p h]
  simp [fullPC, basePC]

theorem resolve_roundtrip (people : List ExportedPerson)
    (hnd : (people.map (fun p => p.person_id)).Nodup) (n0 N : Nat) (pid : Nat)
    (hin : pid ∈ people.map (fun p => p.person_id)) :
    (lookupEnt ((idPairs n0 people).reverse) pid).bind
        (fun e => lookupPersonId
          { nextEntity := N
            persons := linkedList ((idPairs n0 people).reverse) n0 people } e)
      = some pid := by
  obtain ⟨p, hp, hpid⟩ := List.mem_map.mp hin
  obtain ⟨k, hk⟩ := List.getElem?_of_mem hp
  subst hpid
  rw [lookup_spawn_map people hnd n0 k p hk]
  rw [Option.some_bind]
  exact lookupPersonId_linked _ people N n0 k p hk

theorem lookupPersonId_mem (w : World) (ent pid : Nat)
    (h : lookupPersonId w ent = some pid) :
    pid ∈ w.persons.map (fun r => r.2.person.id) := by
  rw [lookupPersonId] at h
  obtain ⟨r, hr, hid⟩ := Option.map_eq_some'.mp h
  have hmem : r ∈ w.persons := List.mem_of_find?_eq_some hr
  rw [← hid]
  exact List.mem_map_of_mem (fun r => r.2.person.id) hmem

theorem export_ids (s : SimulationWorld) :
    (build_export_data s).people.map (fun p => p.person_id)
      = s.world.persons.map (fun q => q.2.person.id) := by
  simp only [build_export_data, List.map_map]
  rfl

theorem export_link_mem (s : SimulationWorld) (p : ExportedPerson)
    (hp : p ∈ (build_export_data s).people) (pid : Nat)
    (h : p.partner_id = some pid ∨ p.mother_id = some pid) :
    pid ∈ (build_export_data s).people.map (fun q => q.person_id) := by
  rw [export_ids]
  simp only [build_export_data] at hp
  obtain ⟨q, hq, hqe⟩ := List.mem_map.mp hp
  rcases h with h | h
  · rw [← hqe] at h
    simp only [exportPerson] at h
    obtain ⟨pe, _, hl⟩ := Option.bind_eq_some.mp h
    exact lookupPersonId_mem s.world pe pid hl
  · rw [← hqe] at h
    simp only [exportPerson] at h
    obtain ⟨me, _, hl⟩ := Option.bind_eq_some.mp h
    exact lookupPersonId_mem s.world me pid hl

theorem optionFertility_roundtrip (fe : Option ExportedFertility) :
    (fe.map fertilityOfExported).map fertilityToExported = fe := by
  cases fe <;> rfl

theorem optionPregnancy_roundtrip (pr : Option ExportedPregnancy) :
    (pr.map pregnancyOfExported).map pregnancyToExported = pr := by
  cases pr <;> rfl

theorem exportPerson_fullPC (people : List ExportedPerson)
    (hnd : (people.map (fun p => p.person_id)).Nodup) (n0 N e : Nat)
    (p : ExportedPerson)
    (hpartner : ∀ pid, p.partner_id = some pid → pid ∈ people.map (fun q => q.person_id))
    (hmother : ∀ mid, p.mother_id = some mid → mid ∈ people.map (fun q => q.person_id)) :
    exportPerson
      { nextEntity := N
        persons := linkedList ((idPairs n0 people).reverse) n0 people }
      (e, fullPC ((idPairs n0 people).reverse) p) = p := by
  have hpa : ((p.partner_id.bind (fun pid => lookupEnt ((idPairs n0 people).reverse) pid)).bind
      (fun pe => lookupPersonId
        { nextEntity := N
          persons := linkedList ((idPairs n0 people).reverse) n0 people } pe))
      = p.partner_id := by
    cases hc : p.partner_id with
    | none => rfl
    | some pid' =>
        rw [Option.some_bind]
        exact resolve_roundtrip people hnd n0 N pid' (hpartner pid' hc)
  have hmo : ((p.mother_id.bind (fun mid => lookupEnt ((idPairs n0 people).reverse) mid)).bind
      (fun me => lookupPersonId
        { nextEntity := N
          persons := linkedList ((idPairs n0 people).reverse) n0 people } me))
      = p.mother_id := by
    cases hc : p.mother_id with
    | none => rfl
    | some mid' =>
        rw [Option.some_bind]
        exact resolve_roundtrip people hnd n0 N mid' (hmother mid' hc)
  simp only [exportPerson, fullPC, basePC, sexToExported_ofExported,
    optionFertility_roundtrip, optionPregnancy_roundtrip, hpa, hmo]

-- ============================================================================
-- C3: assembly
-- ============================================================================

theorem import_version1_state (s0 : SimulationWorld) (data : ExportData)
    (hv : data.version = 1) (hnd : (data.people.map (fun p => p.person_id)).Nodup) :
    (import_from_export_data s0 data).1
      = { world := { nextEntity := s0.world.nextEntity + data.people.length
                     persons := linkedList ((idPairs s0.world.nextEntity data.people).reverse)
                       s0.world.nextEntity data.people }
          calendar := Calendar.new data.calendar.year data.calendar.month data.calendar.day
          next_person_id := data.next_person_id
          event_log := data.event_log.foldl (fun l ev => l.push (eventOfExported ev))
            s0.event_log.clear } := by
  have hspawn := importSpawn_spec data.people
    { nextEntity := s0.world.nextEntity, persons := [] } []
  simp only [List.nil_append, List.append_nil] at hspawn
  have hH : ∀ (j : Nat) (p : ExportedPerson), data.people[j]? = some p →
      lookupEnt ((idPairs s0.world.nextEntity data.people).reverse) p.person_id
        = some (s0.world.nextEntity + j) :=
    fun j p hj => lookup_spawn_map data.people hnd s0.world.nextEntity j p hj
  have hlink := importLink_spec ((idPairs s0.world.nextEntity data.people).reverse) data.people
    [] s0.world.nextEntity (s0.world.nextEntity + data.people.length) 0 0 hH
    (by intro q hq; simp at hq)
  simp only [List.nil_append] at hlink
  simp only [import_from_export_data, if_neg (show ¬ data.version ≠ 1 by simp [hv])]
  simp only [hspawn, hlink]

theorem export_linked (people : List ExportedPerson)
    (hnd : (people.map (fun p => p.person_id)).Nodup) (n0 N : Nat)
    (hok : ∀ p ∈ people,
      (∀ pid, p.partner_id = some pid → pid ∈ people.map (fun q => q.person_id))
      ∧ (∀ mid, p.mother_id = some mid → mid ∈ people.map (fun q => q.person_id))) :
    (linkedList ((idPairs n0 people).reverse) n0 people).map
      (exportPerson
        { nextEntity := N
          persons := linkedList ((idPairs n0 people).reverse) n0 people })
      = people := by
  apply List.ext_getElem?
  intro j
  rw [List.getElem?_map, linkedList_getElem?]
  cases hj : people[j]? with
  | none => rfl
  | some p =>
      simp only [Option.map_some']
      have hp : p ∈ people := by
        obtain ⟨hjlt, he⟩ := List.getElem?_eq_some.mp hj
        exact he ▸ List.getElem_mem hjlt
      exact congrArg some
        (exportPerson_fullPC people hnd n0 N (n0 + j) p (hok p hp).1 (hok p hp).2)

/-- Claim C3: importing the unmodified snapshot produced by export yields a
world with identical population count, identical calendar date and, for
every person, identical exported record — id, names, sex, birth date,
partner id, mother id, fertility and pregnancy (the record holds exactly
those fields, plus the location id) — provided the person ids of the
source world are distinct, as the id allocator guarantees. -/
theorem c3_export_import_roundtrip (s s0 : SimulationWorld)
    (hids : (s.world.persons.map (fun q => q.2.person.id)).Nodup) :
    ((import_from_export_data s0 (build_export_data s)).1.entity_count = s.entity_count)
    ∧ ((import_from_export_data s0 (build_export_data s)).1.calendar = s.calendar)
    ∧ ((build_export_data (import_from_export_data s0 (build_export_data s)).1).people
        = (build_export_data s).people) := by
  have hnd : ((build_export_data s).people.map (fun p => p.person_id)).Nodup := by
    rw [export_ids]; exact hids
  have hstate := import_version1_state s0 (build_export_data s) rfl hnd
  have hok : ∀ p ∈ (build_export_data s).people,
      (∀ pid, p.partner_id = some pid
        → pid ∈ (build_export_data s).people.map (fun q => q.person_id))
      ∧ (∀ mid, p.mother_id = some mid
        → mid ∈ (build_export_data s).people.map (fun q => q.person_id)) :=
    fun p hp =>
      ⟨fun pid h => export_link_mem s p hp pid (Or.inl h),
       fun mid h => export_link_mem s p hp mid (Or.inr h)⟩
  refine ⟨?_, ?_, ?_⟩
  · rw [hstate]
    show (linkedList _ _ _).length = s.world.persons.length
    rw [linkedList_length]
    simp [build_export_data]
  · rw [hstate]
    rfl
  · rw [hstate]
    show (linkedList _ _ _).map (exportPerson _) = (build_export_data s).people
    exact export_linked (build_export_data s).people hnd s0.world.nextEntity
      (s0.world.nextEntity + (build_export_data s).people.length) hok

/-- Witness for C3 on a two-person world with partner and mother links,
fertility and pregnancy records, imported over a fresh world. -/
theorem c3_witness :
    ((import_from_export_data SimulationWorld.new (build_export_data sampleWorld)).1.entity_count
        = sampleWorld.entity_count)
    ∧ ((import_from_export_data SimulationWorld.new (build_export_data sampleWorld)).1.calendar
        = sampleWorld.calendar)
    ∧ ((build_export_data
          (import_from_export_data SimulationWorld.new (build_export_data sampleWorld)).1).people
        = (build_export_data sampleWorld).people) :=
  c3_export_import_roundtrip sampleWorld SimulationWorld.new (by decide)

end GridWorld
